import Mathlib

/-!
# Verification of the Job Analysis & Candidate Matching Engine

A shallow embedding of the core pipeline of the JobmateAI backend
(`app/services/ai/job_analyzer_service.py` and the analyze / matching
endpoints of `app/api/v1/endpoints/jobs.py`), together with theorems
settling the frozen specification claims.

Python dictionaries with possibly-missing keys are modelled by records
whose fields live in `FVal τ`: a field is `absent` (key missing),
`null` (key present holding `None`), or `val x`.  Python truthiness of
the relevant values (empty string, `0`, empty list, `None`) is modelled
explicitly at each call site, matching the source.
-/

set_option maxHeartbeats 1000000

namespace JobmateAI

/-- A Python dict entry: missing key, key present with `None`, or a value. -/
inductive FVal (τ : Type) where
  | absent : FVal τ
  | null : FVal τ
  | val : τ → FVal τ
deriving DecidableEq, Repr

namespace FVal

/-- `d.get(k, 0) or 0`: missing and `None` (and `0` itself) give `0`. -/
def num0 : FVal ℚ → ℚ
  | absent => 0
  | null => 0
  | val x => x

/-- Python truthiness of `d.get(k)` for a string field: non-empty string. -/
def truthyStr : FVal String → Bool
  | val s => !s.isEmpty
  | _ => false

/-- Python truthiness of `d.get(k)` for a numeric field: nonzero number. -/
def truthyNum : FVal ℚ → Bool
  | val x => x ≠ 0
  | _ => false

/-- Python truthiness of `d.get(k)` for a list field: non-empty list. -/
def truthyList {τ : Type} : FVal (List τ) → Bool
  | val l => !l.isEmpty
  | _ => false

/-- `d[k] if k in d and d[k] is not None else []` (array normalisation). -/
def listD {τ : Type} : FVal (List τ) → List τ
  | val l => l
  | _ => []

end FVal

/-- Python `s.lower()` (character-wise lowering; the model of `.lower()`
for the ASCII strings this pipeline manipulates). -/
def strLower (s : String) : String :=
  ⟨s.data.map Char.toLower⟩

/-- Python `s.strip()`: remove leading and trailing whitespace. -/
def strTrim (s : String) : String :=
  ⟨((s.data.dropWhile Char.isWhitespace).reverse.dropWhile Char.isWhitespace).reverse⟩

/-- `"x" in s` for lists of characters: `needle` occurs as a prefix here. -/
def startsWithChars : List Char → List Char → Bool
  | _, [] => true
  | [], _ :: _ => false
  | a :: as, b :: bs => (a = b) && startsWithChars as bs

/-- `needle in hay` (Python substring containment) on character lists. -/
def hasSubChars (hay needle : List Char) : Bool :=
  match hay with
  | [] => needle.isEmpty
  | _ :: t => startsWithChars hay needle || hasSubChars t needle

/-- Python `needle in hay` on strings. -/
def strHasSub (hay needle : String) : Bool :=
  hasSubChars hay.data needle.data

/-- `any(keyword in description for keyword in kws)`. -/
def anyKeyword (description : String) (kws : List String) : Bool :=
  kws.any (fun k => strHasSub description k)

/-! ## The regex `(\d+)\+?\s*years?` (`re.search`, first match, group 1)

At a given start position the pattern can only succeed by consuming the
whole maximal digit run (a shorter greedy backtrack leaves a digit where
`\+?\s*year` would have to match, which is impossible), so the engine is
modelled without backtracking. -/

/-- Numeric value of a digit run. -/
def digitsToNat (ds : List Char) : Nat :=
  ds.foldl (fun acc c => 10 * acc + (c.toNat - '0'.toNat)) 0

/-- Try to match `(\d+)\+?\s*years?` at the start of `cs`. -/
def yearsMatchAt (cs : List Char) : Option Nat :=
  let ds := cs.takeWhile Char.isDigit
  let rest := cs.dropWhile Char.isDigit
  if ds.isEmpty then none
  else
    let r1 := match rest with
      | '+' :: t => t
      | _ => rest
    let r2 := r1.dropWhile Char.isWhitespace
    match r2 with
    | 'y' :: 'e' :: 'a' :: 'r' :: _ => some (digitsToNat ds)
    | _ => none

/-- `re.search(r'(\d+)\+?\s*years?', s)`: leftmost match, value of group 1. -/
def searchYearsChars : List Char → Option Nat
  | [] => none
  | c :: t =>
    match yearsMatchAt (c :: t) with
    | some n => some n
    | none => searchYearsChars t

/-- The year-extraction regex applied to a string. -/
def searchYears (s : String) : Option Nat :=
  searchYearsChars s.data

/-! ## Data model -/

/-- The fields of the job post read by the analyzer
(`app/models/job_post.py`). -/
structure JobPost where
  id : Nat
  title : String
  company : String
  location : String
  job_type : String
  description : String
deriving DecidableEq, Repr

/-- The nested `salary_range` object. -/
structure SalaryRange where
  salary_min : FVal ℚ
  salary_max : FVal ℚ
  currency : FVal String
  period : FVal String
deriving DecidableEq, Repr

/-- The analysis dictionary flowing through the pipeline; every field may
be missing or `None`, as the raw extraction output can be arbitrary. -/
structure Analysis where
  required_skills : FVal (List String)
  preferred_skills : FVal (List String)
  experience_level : FVal String
  min_years_experience : FVal ℚ
  max_years_experience : FVal ℚ
  education_requirements : FVal (List String)
  certifications : FVal (List String)
  responsibilities : FVal (List String)
  benefits : FVal (List String)
  salary_range : FVal SalaryRange
  employment_type : FVal String
  remote_policy : FVal String
  industry : FVal String
  company_size : FVal String
  key_technologies : FVal (List String)
  soft_skills : FVal (List String)
deriving DecidableEq, Repr

/-- The six admissible experience levels. -/
def validLevels : List String :=
  ["entry", "junior", "mid", "senior", "lead", "principal"]

/-- The four admissible employment types. -/
def validTypes : List String :=
  ["full-time", "part-time", "contract", "internship"]

/-! ## `JobAnalyzerService` -/

/-- `_detect_experience_level`: reads the two year fields
(`analysis.get(k, 0) or 0`) and thresholds the average. -/
def detect_experience_level (minF maxF : FVal ℚ) : String :=
  let min_years := minF.num0
  let max_years := maxF.num0
  let avg_years := if max_years > 0 then (min_years + max_years) / 2 else min_years
  if avg_years ≤ 1 then "entry"
  else if avg_years ≤ 3 then "junior"
  else if avg_years ≤ 5 then "mid"
  else if avg_years ≤ 8 then "senior"
  else if avg_years ≤ 12 then "lead"
  else "principal"

/-- The average years actually used by `_detect_experience_level`. -/
def avgYears (minF maxF : FVal ℚ) : ℚ :=
  if maxF.num0 > 0 then (minF.num0 + maxF.num0) / 2 else minF.num0

/-- The dedup key `skill.lower().strip()`. -/
def skillKey (s : String) : String :=
  strTrim (strLower s)

/-- The loop of `_deduplicate_skills`: `seen` is the set of keys already
emitted; first occurrences are kept, trimmed. -/
def dedupGo (seen : List String) : List String → List String
  | [] => []
  | s :: rest =>
    if skillKey s ∈ seen then dedupGo seen rest
    else strTrim s :: dedupGo (skillKey s :: seen) rest

/-- `_deduplicate_skills`. -/
def deduplicate_skills (skills : List String) : List String :=
  dedupGo [] skills

/-- First block of `_validate_and_clean`: ensure arrays are not null. -/
def vacArrays (analysis : Analysis) : Analysis :=
  { analysis with
    required_skills := FVal.val analysis.required_skills.listD,
    preferred_skills := FVal.val analysis.preferred_skills.listD,
    education_requirements := FVal.val analysis.education_requirements.listD,
    certifications := FVal.val analysis.certifications.listD,
    responsibilities := FVal.val analysis.responsibilities.listD,
    benefits := FVal.val analysis.benefits.listD,
    key_technologies := FVal.val analysis.key_technologies.listD,
    soft_skills := FVal.val analysis.soft_skills.listD }

/-- Second block of `_validate_and_clean`: validate the experience
level, deriving it from the year fields when missing or invalid. -/
def vacExperience (a : Analysis) : Analysis :=
  match a.experience_level with
  | FVal.val s =>
    if s ∈ validLevels then a
    else { a with experience_level := FVal.val
                    (detect_experience_level a.min_years_experience a.max_years_experience) }
  | _ => { a with experience_level := FVal.val
                    (detect_experience_level a.min_years_experience a.max_years_experience) }

/-- Third block of `_validate_and_clean`: validate the employment type,
defaulting to full-time. -/
def vacEmployment (a : Analysis) : Analysis :=
  match a.employment_type with
  | FVal.val s => if s ∈ validTypes then a else { a with employment_type := FVal.val "full-time" }
  | _ => { a with employment_type := FVal.val "full-time" }

/-- Fourth block of `_validate_and_clean`: deduplicate skills. -/
def vacDedup (a : Analysis) : Analysis :=
  { a with
    required_skills := FVal.val (deduplicate_skills a.required_skills.listD),
    preferred_skills := FVal.val (deduplicate_skills a.preferred_skills.listD),
    key_technologies := FVal.val (deduplicate_skills a.key_technologies.listD) }

/-- Fifth block of `_validate_and_clean`: ensure at least some required
skills by seeding from the first five key technologies. -/
def vacSeed (a : Analysis) : Analysis :=
  if a.required_skills.listD.isEmpty && !a.key_technologies.listD.isEmpty then
    { a with required_skills := FVal.val (a.key_technologies.listD.take 5) }
  else a

/-- `_validate_and_clean`: the five blocks in source order. -/
def validate_and_clean (analysis : Analysis) : Analysis :=
  vacSeed (vacDedup (vacEmployment (vacExperience (vacArrays analysis))))

/-- The `common_tech` vocabulary of `_enhance_with_rules`. -/
def commonTechEnhance : List String :=
  ["Python", "Java", "JavaScript", "TypeScript", "React", "Node.js",
   "Docker", "Kubernetes", "AWS", "Azure", "PostgreSQL", "MongoDB"]

/-- First block of `_enhance_with_rules`: detect remote policy if not
found (`if not analysis.get("remote_policy")`). -/
def enhanceRemote (description : String) (analysis : Analysis) : Analysis :=
  if analysis.remote_policy.truthyStr then analysis
  else if anyKeyword description ["fully remote", "100% remote", "remote-first"] then
    { analysis with remote_policy := FVal.val "fully-remote" }
  else if anyKeyword description ["hybrid", "flexible"] then
    { analysis with remote_policy := FVal.val "hybrid" }
  else if strHasSub description "on-site" || strHasSub description "office" then
    { analysis with remote_policy := FVal.val "on-site" }
  else analysis

/-- Second block of `_enhance_with_rules`: extract years of experience
if missing (`if not analysis.get("min_years_experience")`). -/
def enhanceYears (description : String) (analysis : Analysis) : Analysis :=
  if analysis.min_years_experience.truthyNum then analysis
  else match searchYears description with
    | some n => { analysis with min_years_experience := FVal.val (n : ℚ) }
    | none => analysis

/-- Third block of `_enhance_with_rules`: detect common technologies if
`key_technologies` is empty (`if not analysis.get("key_technologies")`). -/
def enhanceTech (description : String) (analysis : Analysis) : Analysis :=
  if analysis.key_technologies.truthyList then analysis
  else { analysis with key_technologies := FVal.val
                        ((commonTechEnhance.filter
                          (fun t => strHasSub description (strLower t))).take 10) }

/-- `_enhance_with_rules`: the three blocks in source order over the
lower-cased description. -/
def enhance_with_rules (job_post : JobPost) (analysis : Analysis) : Analysis :=
  let description := strLower job_post.description
  enhanceTech description (enhanceYears description (enhanceRemote description analysis))

/-- `_add_default_fields`: fill only the *missing* keys (a key present
with `None` is left as `None`). -/
def add_default_fields (partial_analysis : Analysis) : Analysis :=
  let fill {τ : Type} (f : FVal τ) (d : FVal τ) : FVal τ :=
    match f with
    | FVal.absent => d
    | x => x
  { required_skills := fill partial_analysis.required_skills (FVal.val []),
    preferred_skills := fill partial_analysis.preferred_skills (FVal.val []),
    experience_level := fill partial_analysis.experience_level (FVal.val "mid"),
    min_years_experience := fill partial_analysis.min_years_experience FVal.null,
    max_years_experience := fill partial_analysis.max_years_experience FVal.null,
    education_requirements := fill partial_analysis.education_requirements (FVal.val []),
    certifications := fill partial_analysis.certifications (FVal.val []),
    responsibilities := fill partial_analysis.responsibilities (FVal.val []),
    benefits := fill partial_analysis.benefits (FVal.val []),
    salary_range := fill partial_analysis.salary_range FVal.null,
    employment_type := fill partial_analysis.employment_type (FVal.val "full-time"),
    remote_policy := fill partial_analysis.remote_policy FVal.null,
    industry := fill partial_analysis.industry FVal.null,
    company_size := fill partial_analysis.company_size FVal.null,
    key_technologies := fill partial_analysis.key_technologies (FVal.val []),
    soft_skills := fill partial_analysis.soft_skills (FVal.val []) }

/-- `_default_response`. -/
def default_response : Analysis :=
  { required_skills := FVal.val [],
    preferred_skills := FVal.val [],
    experience_level := FVal.val "mid",
    min_years_experience := FVal.null,
    max_years_experience := FVal.null,
    education_requirements := FVal.val [],
    certifications := FVal.val [],
    responsibilities := FVal.val [],
    benefits := FVal.val [],
    salary_range := FVal.null,
    employment_type := FVal.val "full-time",
    remote_policy := FVal.null,
    industry := FVal.null,
    company_size := FVal.null,
    key_technologies := FVal.val [],
    soft_skills := FVal.val [] }

/-- The f-string rendering of an experience level field
(`analysis.get('experience_level', 'Not specified')`): a present `None`
renders as the string `None`. -/
def expLevelText : FVal String → String
  | FVal.absent => "Not specified"
  | FVal.null => "None"
  | FVal.val s => s

/-- `_prepare_embedding_text`. -/
def prepare_embedding_text (job_post : JobPost) (analysis : Analysis) : String :=
  let text_parts := [
    "Job Title: " ++ job_post.title,
    "Company: " ++ job_post.company,
    "Experience Level: " ++ expLevelText analysis.experience_level]
  -- Add required skills
  let required_skills := analysis.required_skills.listD
  let text_parts :=
    if required_skills.isEmpty then text_parts
    else text_parts ++ ["Required Skills: " ++ String.intercalate ", " (required_skills.take 10)]
  -- Add key technologies
  let key_technologies := analysis.key_technologies.listD
  let text_parts :=
    if key_technologies.isEmpty then text_parts
    else text_parts ++ ["Technologies: " ++ String.intercalate ", " (key_technologies.take 8)]
  -- Add top responsibilities
  let responsibilities := analysis.responsibilities.listD
  let text_parts :=
    if responsibilities.isEmpty then text_parts
    else text_parts ++
      ["Key Responsibilities: " ++ String.intercalate " " (responsibilities.take 3)]
  String.intercalate "\n" text_parts

/-- The `common_tech` vocabulary of `_fallback_analysis` (16 entries). -/
def commonTechFallback : List String :=
  ["Python", "Java", "JavaScript", "TypeScript", "React", "Node.js",
   "Docker", "Kubernetes", "AWS", "Azure", "PostgreSQL", "MongoDB",
   "Git", "CI/CD", "REST", "API"]

/-- `_fallback_analysis`. -/
def fallback_analysis (job_post : JobPost) : Analysis :=
  let description := strLower job_post.description
  let analysis := default_response
  -- Try to extract years of experience
  let analysis :=
    match searchYears description with
    | some years =>
      { analysis with
        min_years_experience := FVal.val (years : ℚ),
        experience_level :=
          FVal.val (detect_experience_level (FVal.val (years : ℚ)) FVal.absent) }
    | none => analysis
  -- Extract common technologies
  let found_tech := commonTechFallback.filter (fun tech => strHasSub description (strLower tech))
  let analysis := { analysis with
    key_technologies := FVal.val found_tech,
    required_skills := FVal.val (found_tech.take 5) }
  -- Detect employment type
  let analysis :=
    if strHasSub description "contract" then
      { analysis with employment_type := FVal.val "contract" }
    else if strHasSub description "part-time" || strHasSub description "part time" then
      { analysis with employment_type := FVal.val "part-time" }
    else if strHasSub description "intern" then
      { analysis with employment_type := FVal.val "internship" }
    else analysis
  -- Detect remote policy
  let analysis :=
    if anyKeyword description ["fully remote", "100% remote"] then
      { analysis with remote_policy := FVal.val "fully-remote" }
    else if strHasSub description "hybrid" then
      { analysis with remote_policy := FVal.val "hybrid" }
    else if strHasSub description "on-site" then
      { analysis with remote_policy := FVal.val "on-site" }
    else analysis
  analysis

/-- Outcome of `_analyze_with_llm` as determined by the Extraction
Capability: the first structured call parses; it fails to parse but the
simpler retry parses; or neither parses / the call raises. -/
inductive ExtractionOutcome where
  | parsed : Analysis → ExtractionOutcome
  | retryParsed : Analysis → ExtractionOutcome
  | failed : ExtractionOutcome
deriving DecidableEq, Repr

/-- `_analyze_with_llm` (all exceptions from the capability are absorbed
here; both fallbacks inside it are total). -/
def analyze_with_llm : ExtractionOutcome → Analysis
  | ExtractionOutcome.parsed raw => raw
  | ExtractionOutcome.retryParsed raw => add_default_fields raw
  | ExtractionOutcome.failed => default_response

/-- A behaviour of the extraction step as seen by `analyze_job`: either
`_analyze_with_llm` returns (with some outcome), or an exception escapes
a step inside the `try` block (e.g. ill-typed parsed data), taking the
total-failure path. -/
inductive LLMBehavior where
  | extraction : ExtractionOutcome → LLMBehavior
  | pipelineException : LLMBehavior
deriving DecidableEq, Repr

/-- The value returned by `analyze_job`. -/
structure AnalyzeResult where
  analysis : Analysis
  embedding_text : String
deriving DecidableEq, Repr

/-- `JobAnalyzerService.analyze_job`. -/
def analyze_job (job_post : JobPost) (b : LLMBehavior) : AnalyzeResult :=
  match b with
  | LLMBehavior.extraction o =>
    let analysis := analyze_with_llm o
    let analysis := validate_and_clean analysis
    let analysis := enhance_with_rules job_post analysis
    { analysis := analysis,
      embedding_text := prepare_embedding_text job_post analysis }
  | LLMBehavior.pipelineException =>
    let fallback := fallback_analysis job_post
    { analysis := fallback,
      embedding_text := prepare_embedding_text job_post fallback }

/-! ## The `POST /jobs/{job_id}/analyze` endpoint (`jobs.py`) -/

/-- Outcome of the embedding generation / storage block: the vector is
generated and committed; generated but the store/commit raises; or
`embed_document` itself raises (leaving `embedding_vector` unassigned). -/
inductive EmbeddingOutcome where
  | ok : List ℚ → EmbeddingOutcome
  | storeFailed : List ℚ → EmbeddingOutcome
  | generateFailed : EmbeddingOutcome
deriving DecidableEq, Repr

/-- The HTTP-level response of the analyze endpoint. -/
inductive EndpointResponse where
  | notFound : EndpointResponse
  | cached : Analysis → EndpointResponse
  | analyzed : Analysis → Nat → EndpointResponse
  | serverError : EndpointResponse
deriving DecidableEq, Repr

/-- One run of the endpoint, instrumented with whether the analyzer
service (and hence the Extraction Capability) was invoked and whether an
embedding row was committed. -/
structure EndpointRun where
  response : EndpointResponse
  extraction_invoked : Bool
  embedding_stored : Bool
deriving DecidableEq, Repr

/-- The `analyze_job` endpoint of `jobs.py`.  `found` models
`crud.get_job_post` succeeding; `existing` models
`get_job_analysis_by_job_id`.  On the fresh path the analysis record is
created, then the embedding block runs: if `embed_document` raises, the
`except` clause only logs, and the subsequent
`len(embedding_vector)` in the response raises `NameError`, which the
outer `except Exception` converts to an HTTP 500. -/
def analyze_job_endpoint (found : Bool) (existing : Option Analysis)
    (job_post : JobPost) (b : LLMBehavior) (e : EmbeddingOutcome) : EndpointRun :=
  if !found then
    { response := EndpointResponse.notFound, extraction_invoked := false,
      embedding_stored := false }
  else
    match existing with
    | some stored =>
      { response := EndpointResponse.cached stored, extraction_invoked := false,
        embedding_stored := false }
    | none =>
      let result := analyze_job job_post b
      match e with
      | EmbeddingOutcome.ok vec =>
        { response := EndpointResponse.analyzed result.analysis vec.length,
          extraction_invoked := true, embedding_stored := true }
      | EmbeddingOutcome.storeFailed vec =>
        { response := EndpointResponse.analyzed result.analysis vec.length,
          extraction_invoked := true, embedding_stored := false }
      | EmbeddingOutcome.generateFailed =>
        { response := EndpointResponse.serverError,
          extraction_invoked := true, embedding_stored := false }

/-! ## Candidate Matcher

Modelled from the spec: `JobMatcherService.find_matching_candidates`
(`app/services/ai/job_matcher_service.py`) is not under `src/` — only
its caller is — so the matcher is modelled from spec §4.6: semantic
similarity is the candidate's cosine similarity already mapped into
`[0,1]`; rule overlap is `|required ∩ candidate skills| / max(1,
|required|)`; combined = `0.7 * semantic + 0.3 * overlap`; candidates
below `min_score` are discarded; the result is sorted descending by
combined score with ties broken by candidate id ascending, then
truncated to `limit`. -/

/-- Modelled from the spec: a candidate document visible to the matcher,
with its semantic similarity against the job already mapped into [0,1]
(§4.6 step 2) and its skill mentions. -/
structure CandidateDoc where
  id : Nat
  semantic : ℚ
  skills : List String
deriving DecidableEq, Repr

/-- Modelled from the spec: rule-based overlap score (§4.6 step 3). -/
def ruleOverlap (required : List String) (candSkills : List String) : ℚ :=
  ((required.filter (fun s => candSkills.contains s)).length : ℚ)
    / (max 1 required.length : ℚ)

/-- Modelled from the spec: combined score (§4.6 step 4, weights 0.7/0.3). -/
def combinedScore (required : List String) (c : CandidateDoc) : ℚ :=
  (7 / 10) * c.semantic + (3 / 10) * ruleOverlap required c.skills

/-- Modelled from the spec: a scored match (candidate id, combined score). -/
structure CandidateMatch where
  candidate_id : Nat
  score : ℚ
deriving DecidableEq, Repr

/-- Ranking order of matches: higher score first, ties by id ascending. -/
def matchLE (a b : CandidateMatch) : Prop :=
  b.score < a.score ∨ (a.score = b.score ∧ a.candidate_id ≤ b.candidate_id)

instance : DecidableRel matchLE := fun a b => by
  unfold matchLE; infer_instance

instance : IsTotal CandidateMatch matchLE where
  total := by
    intro a b
    rcases lt_trichotomy a.score b.score with h | h | h
    · exact Or.inr (Or.inl h)
    · rcases Nat.le_total a.candidate_id b.candidate_id with h2 | h2
      · exact Or.inl (Or.inr ⟨h, h2⟩)
      · exact Or.inr (Or.inr ⟨h.symm, h2⟩)
    · exact Or.inl (Or.inl h)

instance : IsTrans CandidateMatch matchLE where
  trans := by
    intro a b c hab hbc
    rcases hab with h1 | ⟨e1, i1⟩
    · rcases hbc with h2 | ⟨e2, _⟩
      · exact Or.inl (h2.trans h1)
      · exact Or.inl (e2 ▸ h1)
    · rcases hbc with h2 | ⟨e2, i2⟩
      · exact Or.inl (e1 ▸ h2)
      · exact Or.inr ⟨e1.trans e2, i1.trans i2⟩

/-- Modelled from the spec: `findMatches` (§4.6).  The job's stored
analysis supplies `required`; candidates whose combined score reaches
`min_score` are ranked and truncated to `limit`. -/
def findMatches (required : List String) (candidates : List CandidateDoc)
    (limit : Nat) (min_score : ℚ) : List CandidateMatch :=
  let scored := candidates.map
    (fun c => { candidate_id := c.id, score := combinedScore required c : CandidateMatch })
  let kept := scored.filter (fun m => min_score ≤ m.score)
  let sorted := List.insertionSort matchLE kept
  sorted.take limit

/-! ## Claim-side definitions (statements of the spec's wording, to be
compared with the definitions taken from the source) -/

/-- The experience thresholds exactly as the claim words them, applied to
an average-years value. -/
def claimLevelOfAvg (avg : ℚ) : String :=
  if avg ≤ 1 then "entry"
  else if avg ≤ 3 then "junior"
  else if avg ≤ 5 then "mid"
  else if avg ≤ 8 then "senior"
  else if avg ≤ 12 then "lead"
  else "principal"

/-- Deduplication as the claim words it: keep the first occurrence of
each case-insensitive trimmed key (trimmed, original casing), removing
all later entries with an equal key. -/
def claimDedup : List String → List String
  | [] => []
  | s :: rest =>
    strTrim s :: claimDedup (rest.filter (fun t => decide (skillKey t ≠ skillKey s)))
termination_by l => l.length
decreasing_by
  simp only [List.length_cons]
  exact Nat.lt_succ_of_le (List.length_filter_le _ _)

/-- The fallback technology detection as claim C8 words it: the
*Enhancer's* vocabulary, capped at 10 entries, in vocabulary order. -/
def claimFallbackTechs (description : String) : List String :=
  (commonTechEnhance.filter
    (fun tech => strHasSub (strLower description) (strLower tech))).take 10

/-- The employment-type keyword cascade of the Fallback Analyzer as the
claim words it. -/
def claimEmploymentType (description : String) : String :=
  let d := strLower description
  if strHasSub d "contract" then "contract"
  else if strHasSub d "part-time" || strHasSub d "part time" then "part-time"
  else if strHasSub d "intern" then "internship"
  else "full-time"

/-- The Embedding-Text Builder's lines as the claim words them: labeled
lines in the fixed order title, company, experience level, then — when
non-empty — up to 10 required skills, up to 8 key technologies, and up
to 3 responsibilities, each joined on its own labeled line. -/
def claimEmbeddingLines (title company : String) (a : Analysis) : List String :=
  ["Job Title: " ++ title,
   "Company: " ++ company,
   "Experience Level: " ++ expLevelText a.experience_level] ++
  (if a.required_skills.listD.isEmpty then [] else
    ["Required Skills: " ++ String.intercalate ", " (a.required_skills.listD.take 10)]) ++
  (if a.key_technologies.listD.isEmpty then [] else
    ["Technologies: " ++ String.intercalate ", " (a.key_technologies.listD.take 8)]) ++
  (if a.responsibilities.listD.isEmpty then [] else
    ["Key Responsibilities: " ++ String.intercalate " " (a.responsibilities.listD.take 3)])

/-- Schema completeness of an analysis dictionary: every array field
present as an actual (possibly empty) list, and both enum fields present
with an admissible member. -/
def schemaComplete (a : Analysis) : Prop :=
  (∃ l, a.required_skills = FVal.val l) ∧
  (∃ l, a.preferred_skills = FVal.val l) ∧
  (∃ l, a.education_requirements = FVal.val l) ∧
  (∃ l, a.certifications = FVal.val l) ∧
  (∃ l, a.responsibilities = FVal.val l) ∧
  (∃ l, a.benefits = FVal.val l) ∧
  (∃ l, a.key_technologies = FVal.val l) ∧
  (∃ l, a.soft_skills = FVal.val l) ∧
  (∃ s, a.experience_level = FVal.val s ∧ s ∈ validLevels) ∧
  (∃ t, a.employment_type = FVal.val t ∧ t ∈ validTypes)

/-! ## Concrete sample inputs used by counterexamples and witnesses -/

/-- A sample job post. -/
def sampleJob : JobPost :=
  { id := 1, title := "Backend Engineer", company := "Acme",
    location := "Remote", job_type := "full-time",
    description := "5+ years python and aws" }

/-- A job post with the same title and company as `sampleJob` but
otherwise different. -/
def sampleJobAlt : JobPost :=
  { id := 9, title := "Backend Engineer", company := "Acme",
    location := "Lagos", job_type := "contract",
    description := "an entirely different description" }

/-- A job post whose description mentions Git (present in the fallback
vocabulary, absent from the Enhancer's) and every other fallback
vocabulary entry. -/
def allTechJob : JobPost :=
  { id := 2, title := "Platform Engineer", company := "Acme",
    location := "", job_type := "",
    description := "python java javascript typescript react node.js docker kubernetes aws azure postgresql mongodb git ci/cd rest api" }

/-- A job post whose description mentions ten years. -/
def tenYearsJob : JobPost :=
  { id := 3, title := "Staff Engineer", company := "Acme",
    location := "", job_type := "",
    description := "10 years of experience required" }

/-- An analysis carrying an explicitly present `min_years_experience` of
0 (as extraction can produce for an entry-level post). -/
def zeroMinAnalysis : Analysis :=
  { default_response with min_years_experience := FVal.val 0 }

/-- A single candidate document with perfect semantic similarity and a
matching skill. -/
def c4docs : List CandidateDoc :=
  [{ id := 1, semantic := 1, skills := ["python"] }]

/-- An analysis with every enhancer-relevant field present and truthy. -/
def truthyAnalysis : Analysis :=
  { default_response with
    remote_policy := FVal.val "hybrid",
    min_years_experience := FVal.val 4,
    key_technologies := FVal.val ["Python"] }

/-! ## Helper lemmas -/

/-- `_detect_experience_level` always returns one of the six levels. -/
theorem detect_mem_validLevels (minF maxF : FVal ℚ) :
    detect_experience_level minF maxF ∈ validLevels := by
  unfold detect_experience_level validLevels
  dsimp only
  split_ifs <;> simp

/-- The classifier is the claim's thresholds applied to the code's
average. -/
theorem detect_eq_claimLevel (minF maxF : FVal ℚ) :
    detect_experience_level minF maxF = claimLevelOfAvg (avgYears minF maxF) := rfl

/-- Characterisation of the thresholds as half-open bands. -/
theorem claimLevelOfAvg_iff (v : ℚ) :
    (claimLevelOfAvg v = "entry" ↔ v ≤ 1) ∧
    (claimLevelOfAvg v = "junior" ↔ 1 < v ∧ v ≤ 3) ∧
    (claimLevelOfAvg v = "mid" ↔ 3 < v ∧ v ≤ 5) ∧
    (claimLevelOfAvg v = "senior" ↔ 5 < v ∧ v ≤ 8) ∧
    (claimLevelOfAvg v = "lead" ↔ 8 < v ∧ v ≤ 12) ∧
    (claimLevelOfAvg v = "principal" ↔ 12 < v) := by
  unfold claimLevelOfAvg
  split_ifs with h1 h2 h3 h4 h5 <;>
    refine ⟨?_, ?_, ?_, ?_, ?_, ?_⟩ <;>
      simp only [String.reduceEq, false_iff, true_iff, iff_false, iff_true] <;>
        first
          | linarith
          | constructor <;> linarith
          | (intro h; rcases h with ⟨ha, hb⟩; linarith)

/-! ## C3 and C2: the analyze endpoint -/

/-- C3: for every job that already has a stored analysis, a second
analyze request returns exactly that stored analysis (serialised
unchanged) and neither the analyzer service nor the Extraction
Capability is invoked, whatever the extraction and embedding behaviours
would have been. -/
theorem c3_second_analyze_returns_cached (jp : JobPost) (stored : Analysis)
    (b : LLMBehavior) (e : EmbeddingOutcome) :
    analyze_job_endpoint true (some stored) jp b e =
      { response := EndpointResponse.cached stored,
        extraction_invoked := false,
        embedding_stored := false } := rfl

/-- C2 (code bug): on a fresh analyze run, if `embed_document` raises
after a successful analysis, the endpoint does *not* return the
analysis: the response references the never-assigned `embedding_vector`
(`len(embedding_vector)`), raising `NameError`, which the outer handler
converts to an HTTP 500.  Evaluated here at a concrete failing input;
a failure of the storage commit alone, by contrast, does degrade
gracefully. -/
theorem c2_embedding_generate_failure_returns_500 :
    (analyze_job_endpoint true none sampleJob
        (LLMBehavior.extraction ExtractionOutcome.failed)
        EmbeddingOutcome.generateFailed).response = EndpointResponse.serverError ∧
    (analyze_job_endpoint true none sampleJob
        (LLMBehavior.extraction ExtractionOutcome.failed)
        (EmbeddingOutcome.storeFailed [1, 2])).response =
      EndpointResponse.analyzed
        (analyze_job sampleJob (LLMBehavior.extraction ExtractionOutcome.failed)).analysis 2 := by
  exact ⟨rfl, rfl⟩

/-! ## C5: the Experience Classifier -/

/-- C5 counterexample: with both year fields present (min 4 years, max 0
years) the claim's average is `(4 + 0) / 2 = 2`, which its thresholds
classify as `"junior"`; the code ignores a non-positive max and uses min
alone, returning `"mid"`. -/
theorem c5_counterexample_max_zero :
    detect_experience_level (FVal.val 4) (FVal.val 0) = "mid" ∧
      claimLevelOfAvg ((4 + 0) / 2) = "junior" := by
  constructor
  · decide
  · norm_num [claimLevelOfAvg]

/-- C5 amended: with absent/null year fields read as 0, the classifier
averages min and max only when max is *positive* and otherwise uses min
alone; the resulting average is mapped by exactly the claimed inclusive
thresholds, and the claim's sample points all hold. -/
theorem c5_amended_classifier_thresholds (minF maxF : FVal ℚ) :
    (detect_experience_level minF maxF = "entry" ↔ avgYears minF maxF ≤ 1) ∧
    (detect_experience_level minF maxF = "junior" ↔
      1 < avgYears minF maxF ∧ avgYears minF maxF ≤ 3) ∧
    (detect_experience_level minF maxF = "mid" ↔
      3 < avgYears minF maxF ∧ avgYears minF maxF ≤ 5) ∧
    (detect_experience_level minF maxF = "senior" ↔
      5 < avgYears minF maxF ∧ avgYears minF maxF ≤ 8) ∧
    (detect_experience_level minF maxF = "lead" ↔
      8 < avgYears minF maxF ∧ avgYears minF maxF ≤ 12) ∧
    (detect_experience_level minF maxF = "principal" ↔ 12 < avgYears minF maxF) ∧
    (detect_experience_level (FVal.val 1) FVal.absent = "entry" ∧
     detect_experience_level (FVal.val 1) (FVal.val 2) = "junior" ∧
     detect_experience_level (FVal.val 4) (FVal.val 6) = "mid" ∧
     detect_experience_level (FVal.val 6) (FVal.val 10) = "senior" ∧
     detect_experience_level (FVal.val 10) (FVal.val 14) = "lead" ∧
     detect_experience_level (FVal.val 12) (FVal.val 14) = "principal") := by
  have h := claimLevelOfAvg_iff (avgYears minF maxF)
  rw [detect_eq_claimLevel]
  refine ⟨h.1, h.2.1, h.2.2.1, h.2.2.2.1, h.2.2.2.2.1, h.2.2.2.2.2, ?_, ?_, ?_, ?_, ?_, ?_⟩ <;>
    rw [detect_eq_claimLevel] <;>
      norm_num [avgYears, FVal.num0, claimLevelOfAvg]

/-! ## C6: skill deduplication -/

/-- The accumulator loop of the source is the claim's filter-based
first-occurrence deduplication, relative to the keys already seen. -/
theorem dedupGo_eq_claimDedup (l : List String) : ∀ seen : List String,
    dedupGo seen l = claimDedup (l.filter (fun t => decide (skillKey t ∉ seen))) := by
  induction l with
  | nil => intro seen; simp [dedupGo, claimDedup]
  | cons s rest ih =>
    intro seen
    by_cases hs : skillKey s ∈ seen
    · simp [dedupGo, hs, List.filter_cons, ih seen]
    · have hkeep : (fun t => decide (skillKey t ∉ seen)) s = true := by simp [hs]
      simp only [dedupGo, if_neg hs, List.filter_cons, hkeep, if_true, if_pos trivial]
      rw [show ∀ x xs, claimDedup (x :: xs) =
            strTrim x :: claimDedup (xs.filter (fun t => decide (skillKey t ≠ skillKey x)))
          from fun x xs => by rw [claimDedup.eq_def]]
      rw [ih (skillKey s :: seen), List.filter_filter]
      congr 1
      apply congrArg
      apply List.filter_congr
      intro t _
      by_cases h1 : skillKey t = skillKey s <;> by_cases h2 : skillKey t ∈ seen <;>
        simp [h1, h2]

/-- C6: `_deduplicate_skills` removes entries equal under
case-insensitive trimmed comparison, keeping the first occurrence
(trimmed, with its original casing) in first-seen order; in particular
`["Python", "python", " Python "]` normalises to `["Python"]`. -/
theorem c6_dedup_first_seen :
    (∀ skills : List String, deduplicate_skills skills = claimDedup skills) ∧
      deduplicate_skills ["Python", "python", " Python "] = ["Python"] := by
  constructor
  · intro skills
    have h := dedupGo_eq_claimDedup skills []
    simpa using h
  · decide

/-! ## The Fallback Analyzer's fields (shared by C8, C10, C1) -/

/-- The fallback's detected technologies: the 16-entry vocabulary
filtered by case-insensitive substring containment, uncapped. -/
theorem fallback_key_technologies_eq (jp : JobPost) :
    (fallback_analysis jp).key_technologies =
      FVal.val (commonTechFallback.filter
        (fun tech => strHasSub (strLower jp.description) (strLower tech))) := by
  unfold fallback_analysis
  dsimp only
  cases searchYears (strLower jp.description) <;> split_ifs <;> rfl

/-- The fallback's required skills: the first at most five detected
technologies. -/
theorem fallback_required_skills_eq (jp : JobPost) :
    (fallback_analysis jp).required_skills =
      FVal.val ((commonTechFallback.filter
        (fun tech => strHasSub (strLower jp.description) (strLower tech))).take 5) := by
  unfold fallback_analysis
  dsimp only
  cases searchYears (strLower jp.description) <;> split_ifs <;> rfl

/-- The fallback's employment type is the keyword cascade. -/
theorem fallback_employment_type_eq (jp : JobPost) :
    (fallback_analysis jp).employment_type =
      FVal.val (claimEmploymentType jp.description) := by
  unfold fallback_analysis claimEmploymentType
  dsimp only
  cases searchYears (strLower jp.description) <;> split_ifs <;> rfl

/-! ## C10 -/

/-- C10: on the total-extraction-failure path, `required_skills` is
exactly the first at most 5 technologies detected in the description in
vocabulary order, and is empty exactly when no vocabulary technology
occurs as a substring of the lower-cased description. -/
theorem c10_fallback_required_skills (jp : JobPost) :
    (analyze_job jp LLMBehavior.pipelineException).analysis.required_skills =
      FVal.val ((commonTechFallback.filter
        (fun tech => strHasSub (strLower jp.description) (strLower tech))).take 5) ∧
    ((analyze_job jp LLMBehavior.pipelineException).analysis.required_skills = FVal.val [] ↔
      ∀ tech ∈ commonTechFallback,
        strHasSub (strLower jp.description) (strLower tech) = false) := by
  have hr : (analyze_job jp LLMBehavior.pipelineException).analysis = fallback_analysis jp := rfl
  rw [hr, fallback_required_skills_eq]
  refine ⟨rfl, ?_⟩
  simp [List.take_eq_nil_iff, List.filter_eq_nil_iff]

/-! ## C8: the Fallback Analyzer's technology and employment heuristics -/

/-- C8 counterexample: on a description mentioning every fallback
vocabulary entry, the code's `key_technologies` is the full 16-entry
fallback vocabulary — which both exceeds the claimed cap of 10 and
contains `Git`, `CI/CD`, `REST` and `API`, none of which the Enhancer's
vocabulary has — whereas the claim's derivation (Enhancer vocabulary,
capped at 10) yields only the first ten Enhancer entries. -/
theorem c8_counterexample_vocabulary_and_cap :
    (fallback_analysis allTechJob).key_technologies = FVal.val commonTechFallback ∧
    commonTechFallback.length = 16 ∧
    claimFallbackTechs allTechJob.description =
      ["Python", "Java", "JavaScript", "TypeScript", "React",
       "Node.js", "Docker", "Kubernetes", "AWS", "Azure"] :=
  ⟨by decide, by decide, by decide⟩

/-- C8 amended: the Fallback Analyzer derives `key_technologies` by
intersecting the lower-cased description (case-insensitive substring
match) against its own fixed 16-entry vocabulary — the Enhancer's 12
entries extended with `Git`, `CI/CD`, `REST`, `API` — uncapped, in
vocabulary order; `employment_type` is derived from the substrings
`contract`, `part-time`/`part time`, `intern`, defaulting to
`full-time`. -/
theorem c8_amended_fallback_techs_and_employment (jp : JobPost) :
    (fallback_analysis jp).key_technologies =
      FVal.val (commonTechFallback.filter
        (fun tech => strHasSub (strLower jp.description) (strLower tech))) ∧
    (fallback_analysis jp).employment_type =
      FVal.val (claimEmploymentType jp.description) :=
  ⟨fallback_key_technologies_eq jp, fallback_employment_type_eq jp⟩

/-! ## C7: the Rule-Based Enhancer -/

/-- The remote block only modifies `remote_policy`. -/
theorem enhanceRemote_frame (d : String) (a : Analysis) :
    ∃ rp, enhanceRemote d a = { a with remote_policy := rp } := by
  unfold enhanceRemote
  split_ifs <;> exact ⟨_, rfl⟩

/-- The years block only modifies `min_years_experience`. -/
theorem enhanceYears_frame (d : String) (a : Analysis) :
    ∃ my, enhanceYears d a = { a with min_years_experience := my } := by
  unfold enhanceYears
  cases searchYears d <;> split_ifs <;> exact ⟨_, rfl⟩

/-- The technology block only modifies `key_technologies`. -/
theorem enhanceTech_frame (d : String) (a : Analysis) :
    ∃ kt, enhanceTech d a = { a with key_technologies := kt } := by
  unfold enhanceTech
  split_ifs <;> exact ⟨_, rfl⟩

/-- The enhancer can only ever modify `remote_policy`,
`min_years_experience` and `key_technologies`. -/
theorem enhance_only_three_fields (jp : JobPost) (a : Analysis) :
    ∃ rp my kt, enhance_with_rules jp a =
      { a with remote_policy := rp, min_years_experience := my, key_technologies := kt } := by
  have hd : enhance_with_rules jp a =
      enhanceTech (strLower jp.description)
        (enhanceYears (strLower jp.description)
          (enhanceRemote (strLower jp.description) a)) := rfl
  obtain ⟨rp, h1⟩ := enhanceRemote_frame (strLower jp.description) a
  obtain ⟨my, h2⟩ := enhanceYears_frame (strLower jp.description)
    (enhanceRemote (strLower jp.description) a)
  obtain ⟨kt, h3⟩ := enhanceTech_frame (strLower jp.description)
    (enhanceYears (strLower jp.description) (enhanceRemote (strLower jp.description) a))
  refine ⟨rp, my, kt, ?_⟩
  rw [hd, h3, h2, h1]

/-- A truthy (non-empty) `remote_policy` is never overwritten. -/
theorem enhance_keeps_truthy_remote (jp : JobPost) (a : Analysis)
    (h : a.remote_policy.truthyStr = true) :
    (enhance_with_rules jp a).remote_policy = a.remote_policy := by
  have hd : enhance_with_rules jp a =
      enhanceTech (strLower jp.description)
        (enhanceYears (strLower jp.description)
          (enhanceRemote (strLower jp.description) a)) := rfl
  have h1 : enhanceRemote (strLower jp.description) a = a := by
    unfold enhanceRemote; rw [if_pos h]
  obtain ⟨my, h2⟩ := enhanceYears_frame (strLower jp.description) a
  obtain ⟨kt, h3⟩ := enhanceTech_frame (strLower jp.description)
    (enhanceYears (strLower jp.description) a)
  rw [hd, h1, h3, h2]

/-- A truthy (nonzero) `min_years_experience` is never overwritten. -/
theorem enhance_keeps_truthy_minyears (jp : JobPost) (a : Analysis)
    (h : a.min_years_experience.truthyNum = true) :
    (enhance_with_rules jp a).min_years_experience = a.min_years_experience := by
  have hd : enhance_with_rules jp a =
      enhanceTech (strLower jp.description)
        (enhanceYears (strLower jp.description)
          (enhanceRemote (strLower jp.description) a)) := rfl
  obtain ⟨rp, h1⟩ := enhanceRemote_frame (strLower jp.description) a
  have hmin : (enhanceRemote (strLower jp.description) a).min_years_experience.truthyNum
      = true := by rw [h1]; exact h
  have h2 : enhanceYears (strLower jp.description) (enhanceRemote (strLower jp.description) a) =
      enhanceRemote (strLower jp.description) a := by
    unfold enhanceYears; rw [if_pos hmin]
  obtain ⟨kt, h3⟩ := enhanceTech_frame (strLower jp.description)
    (enhanceRemote (strLower jp.description) a)
  rw [hd, h2, h3, h1]

/-- A truthy (non-empty) `key_technologies` is never overwritten. -/
theorem enhance_keeps_truthy_technologies (jp : JobPost) (a : Analysis)
    (h : a.key_technologies.truthyList = true) :
    (enhance_with_rules jp a).key_technologies = a.key_technologies := by
  have hd : enhance_with_rules jp a =
      enhanceTech (strLower jp.description)
        (enhanceYears (strLower jp.description)
          (enhanceRemote (strLower jp.description) a)) := rfl
  obtain ⟨rp, h1⟩ := enhanceRemote_frame (strLower jp.description) a
  obtain ⟨my, h2⟩ := enhanceYears_frame (strLower jp.description)
    (enhanceRemote (strLower jp.description) a)
  have hkt : (enhanceYears (strLower jp.description)
      (enhanceRemote (strLower jp.description) a)).key_technologies.truthyList = true := by
    rw [h2, h1]; exact h
  have h3 : enhanceTech (strLower jp.description)
      (enhanceYears (strLower jp.description) (enhanceRemote (strLower jp.description) a)) =
      enhanceYears (strLower jp.description) (enhanceRemote (strLower jp.description) a) := by
    unfold enhanceTech; rw [if_pos hkt]
  rw [hd, h3, h2, h1]

/-- C7 counterexample: an analysis in which the extraction step produced
a *present* `min_years_experience` of `0` (neither empty nor null) is
overwritten by the enhancer when the description mentions `10 years`. -/
theorem c7_counterexample_overwrites_present_zero :
    zeroMinAnalysis.min_years_experience = FVal.val 0 ∧
      (enhance_with_rules tenYearsJob zeroMinAnalysis).min_years_experience = FVal.val 10 :=
  ⟨rfl, by decide⟩

/-- C7 amended: the enhancer leaves every field other than
`remote_policy`, `min_years_experience`, `key_technologies` unchanged,
and never overwrites one of those three when its present value is truthy
(non-empty string, nonzero number, non-empty list); a present empty
string, zero, or empty list is treated as absent and may be filled. -/
theorem c7_amended_enhancer_fills_only (jp : JobPost) (a : Analysis) :
    ((enhance_with_rules jp a).required_skills = a.required_skills ∧
     (enhance_with_rules jp a).preferred_skills = a.preferred_skills ∧
     (enhance_with_rules jp a).experience_level = a.experience_level ∧
     (enhance_with_rules jp a).max_years_experience = a.max_years_experience ∧
     (enhance_with_rules jp a).education_requirements = a.education_requirements ∧
     (enhance_with_rules jp a).certifications = a.certifications ∧
     (enhance_with_rules jp a).responsibilities = a.responsibilities ∧
     (enhance_with_rules jp a).benefits = a.benefits ∧
     (enhance_with_rules jp a).salary_range = a.salary_range ∧
     (enhance_with_rules jp a).employment_type = a.employment_type ∧
     (enhance_with_rules jp a).industry = a.industry ∧
     (enhance_with_rules jp a).company_size = a.company_size ∧
     (enhance_with_rules jp a).soft_skills = a.soft_skills) ∧
    (a.remote_policy.truthyStr = true →
      (enhance_with_rules jp a).remote_policy = a.remote_policy) ∧
    (a.min_years_experience.truthyNum = true →
      (enhance_with_rules jp a).min_years_experience = a.min_years_experience) ∧
    (a.key_technologies.truthyList = true →
      (enhance_with_rules jp a).key_technologies = a.key_technologies) := by
  obtain ⟨rp, my, kt, h⟩ := enhance_only_three_fields jp a
  refine ⟨?_, enhance_keeps_truthy_remote jp a, enhance_keeps_truthy_minyears jp a,
    enhance_keeps_truthy_technologies jp a⟩
  rw [h]
  exact ⟨rfl, rfl, rfl, rfl, rfl, rfl, rfl, rfl, rfl, rfl, rfl, rfl, rfl⟩

/-- Witness for the amended C7 at a concrete truthy analysis. -/
theorem c7_amended_enhancer_fills_only_witness :
    truthyAnalysis.remote_policy.truthyStr = true ∧
    truthyAnalysis.min_years_experience.truthyNum = true ∧
    truthyAnalysis.key_technologies.truthyList = true ∧
    (enhance_with_rules sampleJob truthyAnalysis).remote_policy =
      truthyAnalysis.remote_policy ∧
    (enhance_with_rules sampleJob truthyAnalysis).min_years_experience =
      truthyAnalysis.min_years_experience ∧
    (enhance_with_rules sampleJob truthyAnalysis).key_technologies =
      truthyAnalysis.key_technologies ∧
    (enhance_with_rules sampleJob truthyAnalysis).employment_type =
      truthyAnalysis.employment_type := by
  have h := c7_amended_enhancer_fills_only sampleJob truthyAnalysis
  exact ⟨by decide, by decide, by decide,
    h.2.1 (by decide), h.2.2.1 (by decide), h.2.2.2 (by decide),
    h.1.2.2.2.2.2.2.2.2.2.1⟩

/-! ## C9: the Embedding-Text Builder -/

/-- C9: the builder produces exactly the claimed labeled lines joined by
newlines, in the fixed order, and is deterministic: it reads only the
job's title and company besides the analysis, so two invocations with
identical title, company and analysis give byte-identical output. -/
theorem c9_embedding_text_structure_and_determinism
    (jp jp2 : JobPost) (a : Analysis) :
    prepare_embedding_text jp a =
      String.intercalate "\n" (claimEmbeddingLines jp.title jp.company a) ∧
    (jp.title = jp2.title → jp.company = jp2.company →
      prepare_embedding_text jp a = prepare_embedding_text jp2 a) := by
  constructor
  · unfold prepare_embedding_text claimEmbeddingLines
    dsimp only
    split_ifs <;> rfl
  · intro h1 h2
    unfold prepare_embedding_text
    rw [h1, h2]

/-- Witness for C9 at concrete job posts sharing title and company. -/
theorem c9_embedding_text_witness :
    sampleJob.title = sampleJobAlt.title ∧
    sampleJob.company = sampleJobAlt.company ∧
    prepare_embedding_text sampleJob default_response =
      String.intercalate "\n"
        (claimEmbeddingLines sampleJob.title sampleJob.company default_response) ∧
    prepare_embedding_text sampleJob default_response =
      prepare_embedding_text sampleJobAlt default_response := by
  have h := c9_embedding_text_structure_and_determinism sampleJob sampleJobAlt default_response
  exact ⟨rfl, rfl, h.1, h.2 rfl rfl⟩

/-! ## C1: total schema validity of the analyze operation -/

/-- The arrays block leaves the non-array fields unchanged and makes
every array field an actual list. -/
theorem vacArrays_val (a : Analysis) :
    (vacArrays a).required_skills = FVal.val a.required_skills.listD ∧
    (vacArrays a).experience_level = a.experience_level ∧
    (vacArrays a).employment_type = a.employment_type :=
  ⟨rfl, rfl, rfl⟩

/-- The experience block only modifies `experience_level`. -/
theorem vacExperience_frame (a : Analysis) :
    ∃ e, vacExperience a = { a with experience_level := e } := by
  unfold vacExperience
  cases a.experience_level <;>
    first
      | exact ⟨_, rfl⟩
      | (dsimp only; split_ifs <;> exact ⟨_, rfl⟩)

/-- After the experience block, the level is a valid enum member. -/
theorem vacExperience_mem (a : Analysis) :
    ∃ s, (vacExperience a).experience_level = FVal.val s ∧ s ∈ validLevels := by
  unfold vacExperience
  cases h : a.experience_level with
  | val s =>
    by_cases hs : s ∈ validLevels
    · exact ⟨s, by dsimp only; rw [if_pos hs]; exact h, hs⟩
    · exact ⟨_, by dsimp only; rw [if_neg hs], detect_mem_validLevels _ _⟩
  | absent => exact ⟨_, rfl, detect_mem_validLevels _ _⟩
  | null => exact ⟨_, rfl, detect_mem_validLevels _ _⟩

/-- The employment block only modifies `employment_type`. -/
theorem vacEmployment_frame (a : Analysis) :
    ∃ e, vacEmployment a = { a with employment_type := e } := by
  unfold vacEmployment
  cases a.employment_type <;>
    first
      | exact ⟨_, rfl⟩
      | (dsimp only; split_ifs <;> exact ⟨_, rfl⟩)

/-- After the employment block, the type is a valid enum member. -/
theorem vacEmployment_mem (a : Analysis) :
    ∃ t, (vacEmployment a).employment_type = FVal.val t ∧ t ∈ validTypes := by
  unfold vacEmployment
  cases h : a.employment_type with
  | val s =>
    by_cases hs : s ∈ validTypes
    · exact ⟨s, by dsimp only; rw [if_pos hs]; exact h, hs⟩
    · exact ⟨"full-time", by dsimp only; rw [if_neg hs], by simp [validTypes]⟩
  | absent => exact ⟨"full-time", rfl, by simp [validTypes]⟩
  | null => exact ⟨"full-time", rfl, by simp [validTypes]⟩

/-- The dedup block only modifies the three skill lists, making them
actual lists. -/
theorem vacDedup_val (a : Analysis) :
    vacDedup a = { a with
      required_skills := FVal.val (deduplicate_skills a.required_skills.listD),
      preferred_skills := FVal.val (deduplicate_skills a.preferred_skills.listD),
      key_technologies := FVal.val (deduplicate_skills a.key_technologies.listD) } := rfl

/-- The experience block leaves every other field unchanged. -/
theorem vacExperience_proj (a : Analysis) :
    (vacExperience a).required_skills = a.required_skills ∧
    (vacExperience a).preferred_skills = a.preferred_skills ∧
    (vacExperience a).education_requirements = a.education_requirements ∧
    (vacExperience a).certifications = a.certifications ∧
    (vacExperience a).responsibilities = a.responsibilities ∧
    (vacExperience a).benefits = a.benefits ∧
    (vacExperience a).key_technologies = a.key_technologies ∧
    (vacExperience a).soft_skills = a.soft_skills ∧
    (vacExperience a).employment_type = a.employment_type := by
  obtain ⟨e, he⟩ := vacExperience_frame a
  rw [he]
  exact ⟨rfl, rfl, rfl, rfl, rfl, rfl, rfl, rfl, rfl⟩

/-- The employment block leaves every other field unchanged. -/
theorem vacEmployment_proj (a : Analysis) :
    (vacEmployment a).required_skills = a.required_skills ∧
    (vacEmployment a).preferred_skills = a.preferred_skills ∧
    (vacEmployment a).education_requirements = a.education_requirements ∧
    (vacEmployment a).certifications = a.certifications ∧
    (vacEmployment a).responsibilities = a.responsibilities ∧
    (vacEmployment a).benefits = a.benefits ∧
    (vacEmployment a).key_technologies = a.key_technologies ∧
    (vacEmployment a).soft_skills = a.soft_skills ∧
    (vacEmployment a).experience_level = a.experience_level := by
  obtain ⟨e, he⟩ := vacEmployment_frame a
  rw [he]
  exact ⟨rfl, rfl, rfl, rfl, rfl, rfl, rfl, rfl, rfl⟩

/-- The seed block leaves every field but `required_skills` unchanged. -/
theorem vacSeed_proj (a : Analysis) :
    (vacSeed a).preferred_skills = a.preferred_skills ∧
    (vacSeed a).education_requirements = a.education_requirements ∧
    (vacSeed a).certifications = a.certifications ∧
    (vacSeed a).responsibilities = a.responsibilities ∧
    (vacSeed a).benefits = a.benefits ∧
    (vacSeed a).key_technologies = a.key_technologies ∧
    (vacSeed a).soft_skills = a.soft_skills ∧
    (vacSeed a).experience_level = a.experience_level ∧
    (vacSeed a).employment_type = a.employment_type := by
  unfold vacSeed
  split_ifs <;> exact ⟨rfl, rfl, rfl, rfl, rfl, rfl, rfl, rfl, rfl⟩

/-- The seed block keeps `required_skills` an actual list. -/
theorem vacSeed_required_val (a : Analysis)
    (h : ∃ l, a.required_skills = FVal.val l) :
    ∃ l, (vacSeed a).required_skills = FVal.val l := by
  unfold vacSeed
  split_ifs
  · exact ⟨_, rfl⟩
  · exact h

/-- The validator/normaliser always yields a schema-complete analysis. -/
theorem validate_and_clean_schema (a : Analysis) :
    schemaComplete (validate_and_clean a) := by
  obtain ⟨s, hs, hsmem⟩ := vacExperience_mem (vacArrays a)
  obtain ⟨t, ht, htmem⟩ := vacEmployment_mem (vacExperience (vacArrays a))
  have hxp := vacExperience_proj (vacArrays a)
  have hmp := vacEmployment_proj (vacExperience (vacArrays a))
  have hsp := vacSeed_proj (vacDedup (vacEmployment (vacExperience (vacArrays a))))
  show schemaComplete (vacSeed (vacDedup (vacEmployment (vacExperience (vacArrays a)))))
  refine ⟨?_, ?_, ?_, ?_, ?_, ?_, ?_, ?_, ?_, ?_⟩
  · exact vacSeed_required_val _ ⟨_, rfl⟩
  · exact ⟨_, hsp.1⟩
  · exact ⟨_, (hsp.2.1.trans hmp.2.2.1).trans hxp.2.2.1⟩
  · exact ⟨_, (hsp.2.2.1.trans hmp.2.2.2.1).trans hxp.2.2.2.1⟩
  · exact ⟨_, (hsp.2.2.2.1.trans hmp.2.2.2.2.1).trans hxp.2.2.2.2.1⟩
  · exact ⟨_, (hsp.2.2.2.2.1.trans hmp.2.2.2.2.2.1).trans hxp.2.2.2.2.2.1⟩
  · exact ⟨_, hsp.2.2.2.2.2.1⟩
  · exact ⟨_, (hsp.2.2.2.2.2.2.1.trans hmp.2.2.2.2.2.2.2.1).trans hxp.2.2.2.2.2.2.2.1⟩
  · exact ⟨s, (hsp.2.2.2.2.2.2.2.1.trans hmp.2.2.2.2.2.2.2.2).trans hs, hsmem⟩
  · exact ⟨t, hsp.2.2.2.2.2.2.2.2.trans ht, htmem⟩

/-- After the technology block, `key_technologies` is always an actual
list. -/
theorem enhanceTech_val (d : String) (a : Analysis)
    (h : ∃ l, a.key_technologies = FVal.val l) :
    ∃ l, (enhanceTech d a).key_technologies = FVal.val l := by
  unfold enhanceTech
  split_ifs
  · exact h
  · exact ⟨_, rfl⟩

/-- The enhancer preserves schema completeness. -/
theorem enhance_schema (jp : JobPost) (a : Analysis) (h : schemaComplete a) :
    schemaComplete (enhance_with_rules jp a) := by
  obtain ⟨h1, h2, h3, h4, h5, h6, h7, h8, ⟨s, hs, hsmem⟩, ⟨t, ht, htmem⟩⟩ := h
  obtain ⟨rp, my, kt, he⟩ := enhance_only_three_fields jp a
  have hkt : ∃ l, (enhance_with_rules jp a).key_technologies = FVal.val l := by
    have hframe : (enhanceYears (strLower jp.description)
        (enhanceRemote (strLower jp.description) a)).key_technologies =
          a.key_technologies := by
      obtain ⟨rp1, hr⟩ := enhanceRemote_frame (strLower jp.description) a
      obtain ⟨my1, hy⟩ := enhanceYears_frame (strLower jp.description)
        (enhanceRemote (strLower jp.description) a)
      rw [hy, hr]
    have : enhance_with_rules jp a =
        enhanceTech (strLower jp.description)
          (enhanceYears (strLower jp.description)
            (enhanceRemote (strLower jp.description) a)) := rfl
    rw [this]
    exact enhanceTech_val _ _ (hframe ▸ h7)
  refine ⟨?_, ?_, ?_, ?_, ?_, ?_, hkt, ?_, ?_, ?_⟩ <;> rw [he]
  · exact h1
  · exact h2
  · exact h3
  · exact h4
  · exact h5
  · exact h6
  · exact h8
  · exact ⟨s, hs, hsmem⟩
  · exact ⟨t, ht, htmem⟩

/-- The fallback's untouched array fields keep the schema defaults. -/
theorem fallback_static_fields (jp : JobPost) :
    (fallback_analysis jp).preferred_skills = FVal.val [] ∧
    (fallback_analysis jp).education_requirements = FVal.val [] ∧
    (fallback_analysis jp).certifications = FVal.val [] ∧
    (fallback_analysis jp).responsibilities = FVal.val [] ∧
    (fallback_analysis jp).benefits = FVal.val [] ∧
    (fallback_analysis jp).soft_skills = FVal.val [] := by
  unfold fallback_analysis
  dsimp only
  cases searchYears (strLower jp.description) <;> split_ifs <;>
    exact ⟨rfl, rfl, rfl, rfl, rfl, rfl⟩

/-- The fallback's experience level is always a valid enum member. -/
theorem fallback_experience_mem (jp : JobPost) :
    ∃ s, (fallback_analysis jp).experience_level = FVal.val s ∧ s ∈ validLevels := by
  unfold fallback_analysis
  dsimp only
  cases searchYears (strLower jp.description) with
  | none => split_ifs <;> exact ⟨"mid", rfl, by simp [validLevels]⟩
  | some n => split_ifs <;> exact ⟨_, rfl, detect_mem_validLevels _ _⟩

/-- The claimed employment cascade always yields a valid enum member. -/
theorem claimEmploymentType_mem (d : String) : claimEmploymentType d ∈ validTypes := by
  unfold claimEmploymentType
  dsimp only
  split_ifs <;> simp [validTypes]

/-- The Fallback Analyzer always yields a schema-complete analysis. -/
theorem fallback_schema (jp : JobPost) : schemaComplete (fallback_analysis jp) := by
  obtain ⟨hp, he, hc, hr, hb, hs⟩ := fallback_static_fields jp
  obtain ⟨s, hexp, hmem⟩ := fallback_experience_mem jp
  exact ⟨⟨_, fallback_required_skills_eq jp⟩, ⟨_, hp⟩, ⟨_, he⟩, ⟨_, hc⟩, ⟨_, hr⟩, ⟨_, hb⟩,
    ⟨_, fallback_key_technologies_eq jp⟩, ⟨_, hs⟩, ⟨s, hexp, hmem⟩,
    ⟨claimEmploymentType jp.description, fallback_employment_type_eq jp,
      claimEmploymentType_mem jp.description⟩⟩

/-- C1: for every job post and every behaviour of the Extraction
Capability — a successful parse, a malformed response recovered by the
retry, a total failure, or an exception escaping into the fallback path
— the analyze operation returns an analysis in which every array field
is a present (possibly empty) list, `experience_level` is one of the six
levels, and `employment_type` one of the four types. -/
theorem c1_analyze_always_schema_complete (jp : JobPost) (b : LLMBehavior) :
    schemaComplete (analyze_job jp b).analysis := by
  cases b with
  | extraction o =>
    exact enhance_schema jp _ (validate_and_clean_schema (analyze_with_llm o))
  | pipelineException => exact fallback_schema jp

/-! ## C4: the Candidate Matcher (spec-modelled) -/

/-- The rule-based overlap score lies in `[0, 1]`. -/
theorem ruleOverlap_bounds (required candSkills : List String) :
    0 ≤ ruleOverlap required candSkills ∧ ruleOverlap required candSkills ≤ 1 := by
  unfold ruleOverlap
  have hpos : (0 : ℚ) < max 1 (required.length : ℚ) :=
    lt_of_lt_of_le one_pos (le_max_left _ _)
  constructor
  · positivity
  · rw [div_le_one hpos]
    calc ((required.filter (fun s => candSkills.contains s)).length : ℚ)
        ≤ (required.length : ℚ) := by
          exact_mod_cast List.length_filter_le _ _
      _ ≤ max 1 (required.length : ℚ) := le_max_right _ _

/-- C4 (spec-modelled, the matcher service is not under `src/`): for
every `findMatches` call with `limit ≥ 1` and `min_score ∈ [0,1]`, and
candidates whose semantic similarity was mapped into `[0,1]`, every
returned match has combined score in `[min_score, 1]`, the results are
sorted non-increasing by score with ties broken by candidate id
ascending, and at most `limit` items are returned. -/
theorem c4_matching_bounds_sorted_limited
    (required : List String) (candidates : List CandidateDoc)
    (limit : Nat) (min_score : ℚ)
    (hlim : 1 ≤ limit) (hmin0 : 0 ≤ min_score) (hmin1 : min_score ≤ 1)
    (hsem : ∀ c ∈ candidates, 0 ≤ c.semantic ∧ c.semantic ≤ 1) :
    (∀ m ∈ findMatches required candidates limit min_score,
        min_score ≤ m.score ∧ m.score ≤ 1) ∧
    List.Sorted matchLE (findMatches required candidates limit min_score) ∧
    (findMatches required candidates limit min_score).length ≤ limit := by
  refine ⟨?_, ?_, ?_⟩
  · intro m hm
    have h1 : m ∈ List.insertionSort matchLE
        ((candidates.map (fun c =>
          { candidate_id := c.id, score := combinedScore required c : CandidateMatch })).filter
            (fun m => decide (min_score ≤ m.score))) :=
      List.take_subset _ _ hm
    have h2 : m ∈ (candidates.map (fun c =>
        { candidate_id := c.id, score := combinedScore required c : CandidateMatch })).filter
          (fun m => decide (min_score ≤ m.score)) :=
      (List.perm_insertionSort matchLE _).subset h1
    obtain ⟨h3, h4⟩ := List.mem_filter.mp h2
    refine ⟨of_decide_eq_true h4, ?_⟩
    obtain ⟨c, hc, hmc⟩ := List.mem_map.mp h3
    obtain ⟨hc0, hc1⟩ := hsem c hc
    obtain ⟨ho0, ho1⟩ := ruleOverlap_bounds required c.skills
    have hscore : m.score = combinedScore required c := by rw [← hmc]
    rw [hscore]
    unfold combinedScore
    linarith
  · exact List.Pairwise.sublist (List.take_sublist _ _)
      (List.sorted_insertionSort matchLE _)
  · exact List.length_take_le _ _

/-- Witness for C4 at a concrete call. -/
theorem c4_matching_witness :
    (1 ≤ 1 ∧ (0 : ℚ) ≤ 1 / 2 ∧ (1 : ℚ) / 2 ≤ 1 ∧
      (∀ c ∈ c4docs, 0 ≤ c.semantic ∧ c.semantic ≤ 1)) ∧
    (∀ m ∈ findMatches ["python"] c4docs 1 (1 / 2),
        1 / 2 ≤ m.score ∧ m.score ≤ 1) ∧
    List.Sorted matchLE (findMatches ["python"] c4docs 1 (1 / 2)) ∧
    (findMatches ["python"] c4docs 1 (1 / 2)).length ≤ 1 := by
  have hsem : ∀ c ∈ c4docs, 0 ≤ c.semantic ∧ c.semantic ≤ 1 := by
    intro c hc
    have hce : c = { id := 1, semantic := 1, skills := ["python"] } := by
      simpa [c4docs] using hc
    subst hce
    constructor <;> norm_num
  have h := c4_matching_bounds_sorted_limited ["python"] c4docs 1 (1 / 2)
    (le_refl 1) (by norm_num) (by norm_num) hsem
  exact ⟨⟨le_refl 1, by norm_num, by norm_num, hsem⟩, h.1, h.2.1, h.2.2⟩

end JobmateAI
